import Mathlib

/-!
Shallow embedding of the Claude agent conversation loop and its two
conversation stores (`src/claude/agent.py`, `src/claude/tools.py`).

Python dictionaries appearing as JSON-like values are modelled by `JVal`
(objects keep insertion order, as Python dicts do); message `content` is
either a plain string or a list of typed content blocks, exactly as in the
source.  Mutation of `conversation_history` in place is modelled by
explicit state passing: the loop returns the extended history together
with the final response text.  The unbounded `while True` loop is
modelled with an explicit fuel parameter; exhausting fuel returns `none`,
so "the loop never terminates" is rendered as "for every fuel the fuelled
loop returns `none`".
-/

inductive Role where
  | user
  | assistant
deriving DecidableEq, Repr

inductive JVal where
  | str (s : String)
  | num (n : Int)
  | boolean (b : Bool)
  | null
  | arr (xs : List JVal)
  | obj (fields : List (String × JVal))

/-- A tool call's `arguments` / `input`: a Python dict from names to values. -/
abbrev Args := List (String × JVal)

/-- Typed content blocks appearing inside a message's `content` list. -/
inductive Block where
  | toolUse (id : String) (name : String) (input : Args)
  | toolResult (toolUseId : String) (content : String)
  | attach (ty : String) (source : Args)

/-- The `content` of a message: plain text or a list of blocks. -/
inductive Content where
  | str (s : String)
  | blocks (bs : List Block)

structure Msg where
  role : Role
  content : Content

/-! Serialization: `json.dumps` with default options (`ensure_ascii=True`, separators `", "` and `": "`). -/

def hexDigit (n : Nat) : Char :=
  if n < 10 then Char.ofNat (48 + n) else Char.ofNat (87 + n)

def hex4 (n : Nat) : String :=
  String.mk [hexDigit (n / 4096 % 16), hexDigit (n / 256 % 16),
             hexDigit (n / 16 % 16), hexDigit (n % 16)]

def jescChar (c : Char) : String :=
  if c = '"' then "\\\""
  else if c = '\\' then "\\\\"
  else if c = '\n' then "\\n"
  else if c = '\t' then "\\t"
  else if c = '\r' then "\\r"
  else if c.toNat = 8 then "\\b"
  else if c.toNat = 12 then "\\f"
  else if 32 ≤ c.toNat ∧ c.toNat ≤ 126 then String.singleton c
  else if c.toNat < 65536 then "\\u" ++ hex4 c.toNat
  else
    let m := c.toNat - 65536
    "\\u" ++ hex4 (55296 + m / 1024) ++ "\\u" ++ hex4 (56320 + m % 1024)

def jstr (s : String) : String :=
  "\"" ++ String.join (s.data.map jescChar) ++ "\""

mutual

def jdump : JVal → String
  | .str s => jstr s
  | .num n => toString n
  | .boolean b => if b then "true" else "false"
  | .null => "null"
  | .arr xs => "[" ++ jdumpList xs ++ "]"
  | .obj fs => "\x7b" ++ jdumpFields fs ++ "\x7d"

def jdumpList : List JVal → String
  | [] => ""
  | [x] => jdump x
  | x :: y :: rest => jdump x ++ ", " ++ jdumpList (y :: rest)

def jdumpFields : List (String × JVal) → String
  | [] => ""
  | [(k, v)] => jstr k ++ ": " ++ jdump v
  | (k, v) :: p :: rest => jstr k ++ ": " ++ jdump v ++ ", " ++ jdumpFields (p :: rest)

end

/-! Tool registry and dispatch (`src/claude/tools.py`). -/

/-- A raised Python exception, as dispatch observes it: `(str(e), type(e).__name__)`. -/
structure Exn where
  msg : String
  kind : String

/-- A tool handler is a collaborator: it may return a JSON-serializable value
or raise (modelled as `Except`). -/
abbrev Handler := Args → Except Exn JVal

/-- The keys of the fixed `TOOL_HANDLERS` dict in `src/claude/tools.py`. -/
def TOOL_HANDLER_NAMES : List String :=
  ["get_current_datetime",
   "markdown__list_markdown_files",
   "markdown__read_markdown_file",
   "markdown__write_markdown_file",
   "todo__list_todos",
   "todo__add_todo",
   "todo__delete_todo",
   "todo__update_todo",
   "calendar__query_events",
   "calendar__create_event",
   "calendar__update_event",
   "calendar__query_reminders",
   "calendar__create_reminder",
   "calendar__update_reminder"]

/-- Lookup `TOOL_HANDLERS.get`: the registry maps exactly the names above to their
handler implementations (the handlers themselves do I/O and are collaborators,
so they are a parameter `impls`). -/
def TOOL_HANDLERS (impls : String → Handler) (name : String) : Option Handler :=
  if name ∈ TOOL_HANDLER_NAMES then some (impls name) else none

/-- Dispatch: `execute_local_tool` from `src/claude/tools.py`. -/
def execute_local_tool (handlers : String → Option Handler)
    (tool_name : String) (arguments : Args) : JVal :=
  match handlers tool_name with
  | none => .obj [("error", .str ("Unknown tool: " ++ tool_name))]
  | some handler =>
    match handler arguments with
    | .ok v => v
    | .error e => .obj [("error", .str e.msg), ("exception_type", .str e.kind)]

/-! The agent loop: `ClaudeAgent.chat`, `src/claude/agent.py:138-234`. -/

/-- A content block of a model-backend response: `TextBlock`, `BetaTextBlock`
or `ToolUseBlock`. -/
inductive RespBlock where
  | text (s : String)
  | betaText (s : String)
  | toolUse (id : String) (name : String) (input : Args)

/-- The model backend: from the messages sent, the `response.content` list. -/
abbrev Backend := List Msg → List RespBlock

structure ToolUse where
  id : String
  name : String
  input : Args

/-- Selection `[block for block in response.content if isinstance(block, ToolUseBlock)]`. -/
def toolUseBlocks (content : List RespBlock) : List ToolUse :=
  content.filterMap fun b => match b with
    | .toolUse i n a => some ⟨i, n, a⟩
    | _ => none

/-- Selection `[block for block in response.content if isinstance(block, (TextBlock, BetaTextBlock))]`. -/
def textBlocksOf (content : List RespBlock) : List String :=
  content.filterMap fun b => match b with
    | .text s => some s
    | .betaText s => some s
    | _ => none

/-- Concatenation `"\n".join(block.text for block in text_blocks)`. -/
def responseText (content : List RespBlock) : String :=
  String.intercalate "\n" (textBlocksOf content)

/-- The assistant message carrying the raw invocation request
(`{"role": "assistant", "content": [tool_use.model_dump()]}`). -/
def toolUseMsg (tu : ToolUse) : Msg :=
  ⟨.assistant, .blocks [.toolUse tu.id tu.name tu.input]⟩

/-- The user message carrying the tool result
(`{"role": "user", "content": [{"type": "tool_result", "tool_use_id": ..., "content": json.dumps(result)}]}`). -/
def toolResultMsg (handlers : String → Option Handler) (tu : ToolUse) : Msg :=
  ⟨.user, .blocks [.toolResult tu.id (jdump (execute_local_tool handlers tu.name tu.input))]⟩

/-- The `for tool_use in tool_use_blocks` body: append the assistant message
with the raw request, then the user message with the result. -/
def toolPhase (handlers : String → Option Handler) :
    List ToolUse → List Msg → List Msg
  | [], hist => hist
  | tu :: rest, hist =>
      toolPhase handlers rest (hist ++ [toolUseMsg tu, toolResultMsg handlers tu])

/-- The loop `ClaudeAgent.chat`: the `while True` loop, with explicit fuel.  `none`
means the fuel ran out (the Python loop would still be running); `some (h, t)`
is the extended history and the returned response text. -/
def ClaudeAgent.chat (handlers : String → Option Handler) (backend : Backend) :
    Nat → List Msg → Option (List Msg × String)
  | 0, _ => none
  | fuel + 1, hist =>
    let content := backend hist
    let tus := toolUseBlocks content
    if tus.isEmpty then
      let t := responseText content
      some (hist ++ [⟨.assistant, .str t⟩], t)
    else
      ClaudeAgent.chat handlers backend fuel (toolPhase handlers tus hist)

/-- One round-trip's effect on the history when the loop does not stop there. -/
def roundHist (handlers : String → Option Handler) (backend : Backend)
    (hist : List Msg) : List Msg :=
  toolPhase handlers (toolUseBlocks (backend hist)) hist

/-- The history as seen by the backend at the start of round-trip `k`. -/
def histIter (handlers : String → Option Handler) (backend : Backend) :
    Nat → List Msg → List Msg
  | 0, hist => hist
  | k + 1, hist => histIter handlers backend k (roundHist handlers backend hist)

/-- The loop `ClaudeAgent.chat` as the session sees it: a call that can fail
(a raising backend is modelled separately; fuel exhaustion surfaces as an error). -/
def ClaudeAgent.chatExcept (handlers : String → Option Handler) (backend : Backend)
    (fuel : Nat) (hist : List Msg) : Except String (List Msg × String) :=
  match ClaudeAgent.chat handlers backend fuel hist with
  | some r => .ok r
  | none => .error "out of fuel"

/-! User-message normalization, shared by both session backends
(`src/claude/agent.py:359-381` and `:558-580`). -/

/-- Recognized media types: `SUPPORTED_MEDIA_TYPE = set(EXT_MAP.values())`. -/
def SUPPORTED_MEDIA_TYPE : List String :=
  ["image/jpeg", "image/png", "image/gif", "image/webp", "application/pdf"]

/-- One element of the (listified) `user_message`: a plain string or a dict. -/
inductive UserPart where
  | text (s : String)
  | struct (fields : Args)

/-- Input `user_message: str | dict | list`; a non-list argument is wrapped into a
one-element list by `if not isinstance(user_message, list)`. -/
inductive UserMessage where
  | single (p : UserPart)
  | list (ps : List UserPart)

def UserMessage.toList : UserMessage → List UserPart
  | .single p => [p]
  | .list ps => ps

/-- Dict access `u.get("media_type")` on `u`. -/
def dictGet (k : String) (d : Args) : Option JVal :=
  (d.find? fun p => p.1 = k).map Prod.snd

/-- The body of the `for u in user_message` loop applied to one part:
a string becomes a plain-text user message; a dict with a recognized
`media_type` is wrapped into one attachment block (`document` for
`application/pdf`, `image` otherwise); a dict with any other (or missing)
`media_type` is skipped (`continue`). -/
def normalizePart : UserPart → Option Msg
  | .text s => some ⟨.user, .str s⟩
  | .struct u =>
    match dictGet "media_type" u with
    | some (JVal.str mt) =>
      if mt ∈ SUPPORTED_MEDIA_TYPE then
        some ⟨.user, .blocks
          [.attach (if mt = "application/pdf" then "document" else "image") u]⟩
      else none
    | _ => none

/-- All user messages appended by the normalization loop, in order. -/
def userMsgs (um : UserMessage) : List Msg :=
  um.toList.filterMap normalizePart

/-- Resolution `conversation_id or str(uuid.uuid4())`: the id used for this call
(`freshId` stands for the freshly generated UUID). -/
def resolveId (conversation_id : Option String) (freshId : String) : String :=
  conversation_id.getD freshId

/-! The transient store: `InMemoryConversation`, `src/claude/agent.py:286-391`. -/

/-- Assoc-list lookup with Python-dict semantics (`d.get(k)`). -/
def dlookup (k : String) : List (String × α) → Option α
  | [] => none
  | (k', v) :: rest => if k' = k then some v else dlookup k rest

/-- Assoc-list store with Python-dict semantics (`d[k] = v`): replaces in
place, appends a new key at the end. -/
def dstore (k : String) (v : α) : List (String × α) → List (String × α)
  | [] => [(k, v)]
  | (k', v') :: rest =>
      if k' = k then (k, v) :: rest else (k', v') :: dstore k v rest

structure InMemStore where
  conversations : List (String × List Msg)
  metadata : List (String × String)

def emptyInMem : InMemStore := ⟨[], []⟩

/-- Membership test `_conversation_exists`. -/
def inMemExists (store : InMemStore) (conversation_id : String) : Bool :=
  (dlookup conversation_id store.conversations).isSome

/-- Creation `_create_conversation`: empty message list plus `created_at` metadata. -/
def inMemCreate (store : InMemStore) (conversation_id : String) (now : String) :
    InMemStore :=
  ⟨dstore conversation_id [] store.conversations,
   dstore conversation_id now store.metadata⟩

/-- Loading `_load_conversation`: `self.conversations.get(conversation_id, []).copy()`. -/
def inMemLoad (store : InMemStore) (conversation_id : String) : List Msg :=
  (dlookup conversation_id store.conversations).getD []

/-- The `if not self._conversation_exists: self._create_conversation` step. -/
def inMemEnsure (store : InMemStore) (conversation_id : String) (now : String) :
    InMemStore :=
  if inMemExists store conversation_id then store
  else inMemCreate store conversation_id now

/-- The history handed to the wrapped agent: loaded history plus the
normalized user messages. -/
def sessionHistoryMem (store : InMemStore) (um : UserMessage)
    (conversation_id : String) (now : String) : List Msg :=
  inMemLoad (inMemEnsure store conversation_id now) conversation_id ++ userMsgs um

/-- The wrapped agent (`self.agent.chat`): takes the history, returns the
extended history and the response text, or raises. -/
abbrev AgentFn := List Msg → Except String (List Msg × String)

/-- Session `InMemoryConversation.chat`.  The returned store is the state of
`self.conversations` / `self.conversation_metadata` when the call returns
or when the exception propagates: the conversation entry is only
reassigned after the wrapped agent returns. -/
def InMemoryConversation.chat (agent : AgentFn) (store : InMemStore)
    (user_message : UserMessage) (conversation_id : Option String)
    (freshId : String) (now : String) :
    InMemStore × Except String (String × String) :=
  let cid := resolveId conversation_id freshId
  let store1 := inMemEnsure store cid now
  let hist := sessionHistoryMem store user_message cid now
  match agent hist with
  | .error e => (store1, .error e)
  | .ok (hist2, response) =>
      ({ store1 with conversations := dstore cid hist2 store1.conversations },
       .ok (cid, response))

/-! The durable store: `SQLiteConversation`, `src/claude/agent.py:394-599`. -/

/-- One row of the `messages` table (`id`, `conversation_id`, `role`,
`content` (stored as `json.dumps`/`json.loads`-round-tripped serialized text),
`created_at`). -/
structure SqlRow where
  rid : Nat
  convId : String
  role : Role
  content : Content
  created : String

/-- The database: `conversations(id, created_at)` and `messages` rows in
primary-key order (`rid` is the AUTOINCREMENT counter, so insertion order is
primary-key order, which is what `ORDER BY id ASC` reads back). -/
structure SqlStore where
  conversations : List (String × String)
  messages : List SqlRow
  nextId : Nat

def emptySql : SqlStore := ⟨[], [], 0⟩

/-- Membership test `_conversation_exists`: `SELECT id FROM conversations WHERE id = ?`. -/
def sqlExists (store : SqlStore) (conversation_id : String) : Bool :=
  store.conversations.any fun p => p.1 = conversation_id

/-- Creation `_create_conversation`: `INSERT INTO conversations`. -/
def sqlCreate (store : SqlStore) (conversation_id : String) (now : String) :
    SqlStore :=
  { store with conversations := store.conversations ++ [(conversation_id, now)] }

/-- Insertion `_save_message`: one transactional `INSERT INTO messages`. -/
def sqlSaveMessage (store : SqlStore) (conversation_id : String)
    (role : Role) (content : Content) (now : String) : SqlStore :=
  { store with
    messages := store.messages ++ [⟨store.nextId, conversation_id, role, content, now⟩],
    nextId := store.nextId + 1 }

/-- Saving a list of messages one `_save_message` at a time, in order. -/
def sqlSaveAll (store : SqlStore) (conversation_id : String)
    (msgs : List Msg) (now : String) : SqlStore :=
  msgs.foldl (fun st m => sqlSaveMessage st conversation_id m.role m.content now) store

/-- Loading `_load_conversation`: `SELECT role, content FROM messages WHERE
conversation_id = ? ORDER BY id ASC`, deserializing each row's content. -/
def sqlLoad (store : SqlStore) (conversation_id : String) : List Msg :=
  store.messages.filterMap fun r =>
    if r.convId = conversation_id then some ⟨r.role, r.content⟩ else none

/-- The `if not self._conversation_exists: self._create_conversation` step. -/
def sqlEnsure (store : SqlStore) (conversation_id : String) (now : String) :
    SqlStore :=
  if sqlExists store conversation_id then store
  else sqlCreate store conversation_id now

/-- The history handed to the wrapped agent by `SQLiteConversation.chat`. -/
def sessionHistorySql (store : SqlStore) (um : UserMessage)
    (conversation_id : String) (now : String) : List Msg :=
  sqlLoad (sqlEnsure store conversation_id now) conversation_id ++ userMsgs um

/-- Session `SQLiteConversation.chat`.  The normalization loop saves each normalized
user message as it appends it; `initial_message_count` is the length of the
history before the wrapped agent runs, and after the agent returns exactly
`conversation_history[initial_message_count:]` is saved.  The returned store
is the database state when the call returns or when the agent's exception
propagates. -/
def SQLiteConversation.chat (agent : AgentFn) (store : SqlStore)
    (user_message : UserMessage) (conversation_id : Option String)
    (freshId : String) (now : String) :
    SqlStore × Except String (String × String) :=
  let cid := resolveId conversation_id freshId
  let store1 := sqlEnsure store cid now
  let parts := userMsgs user_message
  let store2 := sqlSaveAll store1 cid parts now
  let hist := sqlLoad store1 cid ++ parts
  let initial_message_count := hist.length
  match agent hist with
  | .error e => (store2, .error e)
  | .ok (hist2, response) =>
      (sqlSaveAll store2 cid (hist2.drop initial_message_count) now,
       .ok (cid, response))

/-- The messages the tool-execution phase appends, in order. -/
def toolPhaseMsgs (handlers : String → Option Handler) : List ToolUse → List Msg
  | [] => []
  | tu :: rest => toolUseMsg tu :: toolResultMsg handlers tu :: toolPhaseMsgs handlers rest

/-- A registry resolving no tool at all. -/
def cNoHandlers : String → Option Handler := fun _ => none

/-- A backend that requests a tool in every response. -/
def cLoopBackend : Backend := fun _ => [.toolUse "t1" "sometool" []]

/-- The `tool_use_id`s of the tool-result blocks a message carries. -/
def toolResultIds (m : Msg) : List String :=
  match m.content with
  | .str _ => []
  | .blocks bs => bs.filterMap fun b => match b with
      | .toolResult i _ => some i
      | _ => none

/-- Does `m` carry, as an assistant turn, a tool-invocation request with id `i`? -/
def carriesToolUse (m : Msg) (i : String) : Bool :=
  decide (m.role = Role.assistant) &&
  match m.content with
  | .str _ => false
  | .blocks bs => bs.any fun b => match b with
      | .toolUse j _ _ => decide (j = i)
      | _ => false

/-- Every tool result in the list refers to a tool-invocation request with the
same id carried by the immediately preceding message (`prev` standing for the
message just before the list's head). -/
def matchedAfter : Option Msg → List Msg → Bool
  | _, [] => true
  | prev, m :: rest =>
    ((toolResultIds m).all fun i =>
      match prev with
      | none => false
      | some p => carriesToolUse p i) && matchedAfter (some m) rest

/-- The pairing invariant on a whole conversation history. -/
def toolResultsMatched (hist : List Msg) : Bool := matchedAfter none hist

/-- The message preceding whatever would come after `h`, when the message
preceding `h`'s head is `prev`. -/
def lastOr (prev : Option Msg) : List Msg → Option Msg
  | [] => prev
  | m :: rest => lastOr (some m) rest

/-- A stub registry in which tool "echo" is registered and echoes its
arguments back as an object. -/
def echoReg : String → Option Handler :=
  fun n => if n = "echo" then some (fun args => .ok (.obj args)) else none

/-- A stub backend that requests tool "echo" with `{"n": 3}` exactly once
(on the opening one-message history) and then returns the plain text
"done". -/
def doneBackend : Backend :=
  fun h => if h.length ≤ 1 then [.toolUse "tu1" "echo" [("n", .num 3)]]
           else [.text "done"]

/-- The error-payload shape the specification claims for a raising handler:
`\x7b"error": message, "kind": exception type name\x7d` (spec wording; to be
compared against what `execute_local_tool` actually builds). -/
def specErrorPayload (message : String) (kind : String) : JVal :=
  .obj [("error", .str message), ("kind", .str kind)]

/-- Handler implementations that all raise `ValueError("boom")`. -/
def cRaisingImpls : String → Handler :=
  fun _ => fun _ => .error ⟨"boom", "ValueError"⟩

/-- A stub backend that always requests the registered tool
`get_current_datetime`. -/
def cRaiseBackend : Backend := fun _ => [.toolUse "t1" "get_current_datetime" []]

/-- A stub backend that requests the unregistered tool "nonexistent" on the
opening empty history and returns plain text "ok" afterwards. -/
def cNonexistentBackend : Backend :=
  fun h => if h.isEmpty then [.toolUse "t2" "nonexistent" []] else [.text "ok"]

def endsWithUser (hist : List Msg) : Bool :=
  match hist.getLast? with
  | some m => decide (m.role = Role.user)
  | none => false

/-- A stub backend that immediately answers with plain text "r". -/
def cTextBackend : Backend := fun _ => [.text "r"]

/-- Database well-formedness: every message row belongs to a conversation
recorded in the `conversations` table (every row is inserted by `chat` right
after the conversation is created). -/
def sqlWF (store : SqlStore) : Prop :=
  ∀ r ∈ store.messages, sqlExists store r.convId = true

/-- An agent stub that always raises. -/
def cFailAgent : AgentFn := fun _ => .error "backend down"

/-- A store already holding one conversation "c0" with one old message. -/
def cStore1 : InMemStore :=
  ⟨[("c0", [⟨.user, .str "old"⟩])], [("c0", "t1")]⟩

/-- The rows that saving `msgs` for `cid` inserts, given the next
AUTOINCREMENT value. -/
def mkRows (startId : Nat) (cid : String) (now : String) : List Msg → List SqlRow
  | [] => []
  | m :: rest => ⟨startId, cid, m.role, m.content, now⟩ :: mkRows (startId + 1) cid now rest

/-- Reading a conversation out of a raw row list. -/
def rowsLoad (rows : List SqlRow) (cid : String) : List Msg :=
  rows.filterMap fun r =>
    if r.convId = cid then some ⟨r.role, r.content⟩ else none

/-- One scripted `chat` call: the user message, the optional conversation id
passed by the caller, the id that `uuid.uuid4()` would generate if absent,
and the wall-clock timestamp. -/
structure CallIn where
  userMessage : UserMessage
  conversationId : Option String
  freshId : String
  now : String

/-- A scripted sequence of `chat` calls against `InMemoryConversation`. -/
def runInMem (agent : AgentFn) :
    List CallIn → InMemStore → InMemStore × List (Except String (String × String))
  | [], store => (store, [])
  | c :: rest, store =>
    let r := InMemoryConversation.chat agent store c.userMessage
      c.conversationId c.freshId c.now
    let rr := runInMem agent rest r.1
    (rr.1, r.2 :: rr.2)

/-- The same scripted sequence against `SQLiteConversation`. -/
def runSql (agent : AgentFn) :
    List CallIn → SqlStore → SqlStore × List (Except String (String × String))
  | [], store => (store, [])
  | c :: rest, store =>
    let r := SQLiteConversation.chat agent store c.userMessage
      c.conversationId c.freshId c.now
    let rr := runSql agent rest r.1
    (rr.1, r.2 :: rr.2)

theorem toolPhase_eq_append (handlers : String → Option Handler)
    (tus : List ToolUse) (hist : List Msg) :
    toolPhase handlers tus hist = hist ++ toolPhaseMsgs handlers tus := by
  induction tus generalizing hist with
  | nil => simp [toolPhase, toolPhaseMsgs]
  | cons tu rest ih => simp [toolPhase, toolPhaseMsgs, ih]

theorem chat_zero (handlers : String → Option Handler) (backend : Backend)
    (hist : List Msg) : ClaudeAgent.chat handlers backend 0 hist = none := rfl

theorem chat_succ (handlers : String → Option Handler) (backend : Backend)
    (fuel : Nat) (hist : List Msg) :
    ClaudeAgent.chat handlers backend (fuel + 1) hist =
      if (toolUseBlocks (backend hist)).isEmpty then
        some (hist ++ [⟨.assistant, .str (responseText (backend hist))⟩],
              responseText (backend hist))
      else
        ClaudeAgent.chat handlers backend fuel
          (toolPhase handlers (toolUseBlocks (backend hist)) hist) := rfl

/-- Whatever the loop returns extends the history it was given. -/
theorem chat_extends (handlers : String → Option Handler) (backend : Backend) :
    ∀ (fuel : Nat) (hist : List Msg) (r : List Msg × String),
      ClaudeAgent.chat handlers backend fuel hist = some r →
      ∃ tail, r.1 = hist ++ tail := by
  intro fuel
  induction fuel with
  | zero => intro hist r h; simp [chat_zero] at h
  | succ fuel ih =>
    intro hist r h
    rw [chat_succ] at h
    by_cases he : (toolUseBlocks (backend hist)).isEmpty
    · rw [if_pos he] at h
      exact ⟨[⟨.assistant, .str (responseText (backend hist))⟩], by
        cases h; rfl⟩
    · rw [if_neg he] at h
      obtain ⟨tail, htail⟩ := ih _ r h
      rw [toolPhase_eq_append] at htail
      exact ⟨toolPhaseMsgs handlers (toolUseBlocks (backend hist)) ++ tail, by
        simpa using htail⟩

theorem histIter_succ (handlers : String → Option Handler) (backend : Backend)
    (k : Nat) (hist : List Msg) :
    histIter handlers backend (k + 1) hist =
      histIter handlers backend k (roundHist handlers backend hist) := rfl

/-- If the fuelled loop returns, some round-trip's response had no tool use. -/
theorem chat_some_gives_round (handlers : String → Option Handler)
    (backend : Backend) :
    ∀ (fuel : Nat) (hist : List Msg) (r : List Msg × String),
      ClaudeAgent.chat handlers backend fuel hist = some r →
      ∃ k, toolUseBlocks (backend (histIter handlers backend k hist)) = [] := by
  intro fuel
  induction fuel with
  | zero => intro hist r h; simp [chat_zero] at h
  | succ fuel ih =>
    intro hist r h
    rw [chat_succ] at h
    by_cases he : (toolUseBlocks (backend hist)).isEmpty
    · exact ⟨0, by simpa [histIter, List.isEmpty_iff] using he⟩
    · rw [if_neg he] at h
      obtain ⟨k, hk⟩ := ih _ r h
      exact ⟨k + 1, by simpa [histIter_succ, roundHist] using hk⟩

/-- If some round-trip's response has no tool use, the loop returns within
that many round-trips of fuel. -/
theorem round_gives_chat_some (handlers : String → Option Handler)
    (backend : Backend) :
    ∀ (k : Nat) (hist : List Msg),
      toolUseBlocks (backend (histIter handlers backend k hist)) = [] →
      ∃ r, ClaudeAgent.chat handlers backend (k + 1) hist = some r := by
  intro k
  induction k with
  | zero =>
    intro hist h
    have he : (toolUseBlocks (backend hist)).isEmpty := by
      simpa [histIter, List.isEmpty_iff] using h
    exact ⟨_, by rw [chat_succ, if_pos he]⟩
  | succ k ih =>
    intro hist h
    by_cases he : (toolUseBlocks (backend hist)).isEmpty
    · exact ⟨_, by rw [chat_succ, if_pos he]⟩
    · rw [histIter_succ] at h
      obtain ⟨r, hr⟩ := ih (roundHist handlers backend hist) h
      exact ⟨r, by rw [chat_succ, if_neg he]; simpa [roundHist] using hr⟩

/-- Against a backend whose every response requests a tool, the loop never
returns, whatever the fuel. -/
theorem chat_never_returns (handlers : String → Option Handler)
    (backend : Backend)
    (halways : ∀ h, toolUseBlocks (backend h) ≠ []) :
    ∀ (fuel : Nat) (hist : List Msg),
      ClaudeAgent.chat handlers backend fuel hist = none := by
  intro fuel
  induction fuel with
  | zero => intro hist; rfl
  | succ fuel ih =>
    intro hist
    rw [chat_succ, if_neg ?_]
    · exact ih _
    · simpa [List.isEmpty_iff] using halways hist

/-- C1: the agent loop (`ClaudeAgent.chat`) has no iteration bound: it
terminates exactly when a backend response contains no tool-invocation
request, and for every backend that returns a tool-invocation request in
every response, the loop never terminates (for every fuel, the fuelled loop
is still running). -/
theorem agent_loop_no_bound_termination (handlers : String → Option Handler)
    (backend : Backend) (hist : List Msg) :
    ((∃ fuel r, ClaudeAgent.chat handlers backend fuel hist = some r) ↔
      (∃ k, toolUseBlocks (backend (histIter handlers backend k hist)) = []))
    ∧ ((∀ h, toolUseBlocks (backend h) ≠ []) →
        ∀ fuel, ClaudeAgent.chat handlers backend fuel hist = none) := by
  constructor
  · constructor
    · rintro ⟨fuel, r, hr⟩
      exact chat_some_gives_round handlers backend fuel hist r hr
    · rintro ⟨k, hk⟩
      obtain ⟨r, hr⟩ := round_gives_chat_some handlers backend k hist hk
      exact ⟨k + 1, r, hr⟩
  · intro halways fuel
    exact chat_never_returns handlers backend halways fuel hist

/-- Witness for C1: against the always-requesting stub backend, the loop is
still running after 5 rounds of fuel. -/
theorem agent_loop_no_bound_termination_witness :
    ClaudeAgent.chat cNoHandlers cLoopBackend 5 [] = none :=
  (agent_loop_no_bound_termination cNoHandlers cLoopBackend []).2
    (fun h => by simp [cLoopBackend, toolUseBlocks]) 5

theorem matchedAfter_append (prev : Option Msg) (h t : List Msg) :
    matchedAfter prev (h ++ t) =
      (matchedAfter prev h && matchedAfter (lastOr prev h) t) := by
  induction h generalizing prev with
  | nil => simp [matchedAfter, lastOr]
  | cons m rest ih => simp [matchedAfter, lastOr, ih, Bool.and_assoc]

theorem matchedAfter_toolPhaseMsgs (handlers : String → Option Handler)
    (tus : List ToolUse) (prev : Option Msg) :
    matchedAfter prev (toolPhaseMsgs handlers tus) = true := by
  induction tus generalizing prev with
  | nil => rfl
  | cons tu rest ih =>
    simp [toolPhaseMsgs, matchedAfter, toolResultIds, carriesToolUse,
          toolUseMsg, toolResultMsg, ih]

/-- The loop preserves the pairing invariant. -/
theorem chat_preserves_matched (handlers : String → Option Handler)
    (backend : Backend) :
    ∀ (fuel : Nat) (hist : List Msg) (r : List Msg × String),
      toolResultsMatched hist = true →
      ClaudeAgent.chat handlers backend fuel hist = some r →
      toolResultsMatched r.1 = true := by
  intro fuel
  induction fuel with
  | zero => intro hist r _ h; simp [chat_zero] at h
  | succ fuel ih =>
    intro hist r hm h
    rw [chat_succ] at h
    by_cases he : (toolUseBlocks (backend hist)).isEmpty
    · rw [if_pos he] at h
      cases h
      simp only [toolResultsMatched] at hm ⊢
      rw [matchedAfter_append, hm]
      simp [matchedAfter, toolResultIds]
    · rw [if_neg he] at h
      refine ih _ r ?_ h
      rw [toolPhase_eq_append]
      simp only [toolResultsMatched] at hm ⊢
      rw [matchedAfter_append, hm]
      simp [matchedAfter_toolPhaseMsgs]

/-- C4: each tool-result message the loop appends refers, via its
`tool_use_id`, to a tool-invocation request with the same id carried by the
immediately preceding assistant message (the loop preserves the pairing
invariant); and for a backend that requests tool "echo" exactly once and
then answers "done", `chat` returns "done" with history: user turn,
assistant turn carrying the invocation, user turn carrying the matching
tool result, assistant turn with the final text. -/
theorem chat_tool_result_pairing (handlers : String → Option Handler)
    (backend : Backend) :
    (∀ (fuel : Nat) (hist : List Msg) (r : List Msg × String),
        toolResultsMatched hist = true →
        ClaudeAgent.chat handlers backend fuel hist = some r →
        toolResultsMatched r.1 = true)
    ∧ ClaudeAgent.chat echoReg doneBackend 2 [⟨.user, .str "go"⟩] =
        some ([⟨.user, .str "go"⟩,
               ⟨.assistant, .blocks [.toolUse "tu1" "echo" [("n", .num 3)]]⟩,
               ⟨.user, .blocks [.toolResult "tu1" "\x7b\"n\": 3\x7d"]⟩,
               ⟨.assistant, .str "done"⟩], "done") :=
  ⟨chat_preserves_matched handlers backend, rfl⟩

/-- Witness for C4: the pairing invariant, instantiated on the concrete
"echo then done" run. -/
theorem chat_tool_result_pairing_witness :
    toolResultsMatched
      [⟨.user, .str "go"⟩,
       ⟨.assistant, .blocks [.toolUse "tu1" "echo" [("n", .num 3)]]⟩,
       ⟨.user, .blocks [.toolResult "tu1" "\x7b\"n\": 3\x7d"]⟩,
       ⟨.assistant, .str "done"⟩] = true :=
  (chat_tool_result_pairing echoReg doneBackend).1 2 [⟨.user, .str "go"⟩]
    _ rfl (chat_tool_result_pairing echoReg doneBackend).2

/-- Counterexample for C2: dispatching to a handler that raises
`ValueError("boom")` yields the payload keyed `"exception_type"`, not the
`"kind"`-keyed shape the claim states. -/
theorem dispatch_error_payload_key_counterexample :
    execute_local_tool (TOOL_HANDLERS cRaisingImpls) "get_current_datetime" [] =
      JVal.obj [("error", .str "boom"), ("exception_type", .str "ValueError")]
    ∧ execute_local_tool (TOOL_HANDLERS cRaisingImpls) "get_current_datetime" [] ≠
      specErrorPayload "boom" "ValueError" := by
  refine ⟨rfl, ?_⟩
  intro h
  simp [execute_local_tool, TOOL_HANDLERS, TOOL_HANDLER_NAMES, cRaisingImpls,
        specErrorPayload] at h

/-- C2 (amended): a handler exception during dispatch is caught and converted
into the structured payload `\x7b"error": str(e), "exception_type":
type(e).__name__\x7d`; the loop appends it to the conversation as a user-role
tool result and continues with the next round-trip instead of letting the
exception propagate. -/
theorem dispatch_handler_exception_payload (handlers : String → Option Handler)
    (name : String) (args : Args) (hdl : Handler) (e : Exn)
    (backend : Backend) (hist : List Msg) (i : String) (fuel : Nat)
    (hreg : handlers name = some hdl) (hraise : hdl args = .error e)
    (hresp : toolUseBlocks (backend hist) = [⟨i, name, args⟩]) :
    execute_local_tool handlers name args =
      JVal.obj [("error", .str e.msg), ("exception_type", .str e.kind)]
    ∧ ClaudeAgent.chat handlers backend (fuel + 1) hist =
        ClaudeAgent.chat handlers backend fuel
          (hist ++ [toolUseMsg ⟨i, name, args⟩,
                    ⟨.user, .blocks [.toolResult i
                      (jdump (JVal.obj [("error", .str e.msg),
                                        ("exception_type", .str e.kind)]))]⟩]) := by
  have hpayload : execute_local_tool handlers name args =
      JVal.obj [("error", .str e.msg), ("exception_type", .str e.kind)] := by
    simp [execute_local_tool, hreg, hraise]
  refine ⟨hpayload, ?_⟩
  rw [chat_succ, hresp, if_neg (by simp)]
  simp [toolPhase, toolResultMsg, hpayload]

/-- Witness for C2 (amended): the concrete raising registry, at tool
`get_current_datetime` with empty arguments. -/
theorem dispatch_handler_exception_payload_witness :
    execute_local_tool (TOOL_HANDLERS cRaisingImpls) "get_current_datetime" [] =
      JVal.obj [("error", .str "boom"), ("exception_type", .str "ValueError")] :=
  (dispatch_handler_exception_payload (TOOL_HANDLERS cRaisingImpls)
    "get_current_datetime" [] (cRaisingImpls "get_current_datetime")
    ⟨"boom", "ValueError"⟩ cRaiseBackend [] "t1" 0 rfl rfl rfl).1

/-- C3: for every tool name not among the keys of `TOOL_HANDLERS` and any
arguments, dispatch returns the structured unknown-tool error payload (and,
being a total function, never raises), and the loop appends a user-role
tool-result message carrying that payload and continues with the next
round-trip rather than aborting. -/
theorem unknown_tool_dispatch (impls : String → Handler)
    (name : String) (args : Args)
    (backend : Backend) (hist : List Msg) (i : String) (fuel : Nat)
    (hunk : name ∉ TOOL_HANDLER_NAMES)
    (hresp : toolUseBlocks (backend hist) = [⟨i, name, args⟩]) :
    execute_local_tool (TOOL_HANDLERS impls) name args =
      JVal.obj [("error", .str ("Unknown tool: " ++ name))]
    ∧ ClaudeAgent.chat (TOOL_HANDLERS impls) backend (fuel + 1) hist =
        ClaudeAgent.chat (TOOL_HANDLERS impls) backend fuel
          (hist ++ [toolUseMsg ⟨i, name, args⟩,
                    ⟨.user, .blocks [.toolResult i
                      (jdump (JVal.obj [("error",
                        .str ("Unknown tool: " ++ name))]))]⟩]) := by
  have hpayload : execute_local_tool (TOOL_HANDLERS impls) name args =
      JVal.obj [("error", .str ("Unknown tool: " ++ name))] := by
    simp [execute_local_tool, TOOL_HANDLERS, hunk]
  refine ⟨hpayload, ?_⟩
  rw [chat_succ, hresp, if_neg (by simp)]
  simp [toolPhase, toolResultMsg, hpayload]

/-- Witness for C3: requesting "nonexistent" yields the unknown-tool payload
as a user-role tool result, and a second, plain-text stubbed response then
finishes the loop normally. -/
theorem unknown_tool_dispatch_witness :
    ClaudeAgent.chat (TOOL_HANDLERS cRaisingImpls) cNonexistentBackend 2 [] =
      ClaudeAgent.chat (TOOL_HANDLERS cRaisingImpls) cNonexistentBackend 1
        ([] ++ [toolUseMsg ⟨"t2", "nonexistent", []⟩,
                ⟨.user, .blocks [.toolResult "t2"
                  "\x7b\"error\": \"Unknown tool: nonexistent\"\x7d"]⟩])
    ∧ ClaudeAgent.chat (TOOL_HANDLERS cRaisingImpls) cNonexistentBackend 2 [] =
        some ([toolUseMsg ⟨"t2", "nonexistent", []⟩,
               ⟨.user, .blocks [.toolResult "t2"
                 "\x7b\"error\": \"Unknown tool: nonexistent\"\x7d"]⟩,
               ⟨.assistant, .str "ok"⟩], "ok") :=
  ⟨(unknown_tool_dispatch cRaisingImpls "nonexistent" [] cNonexistentBackend
      [] "t2" 1 (by decide) rfl).2, rfl⟩

theorem getLast?_append_right (h t : List Msg) (ht : t ≠ []) :
    (h ++ t).getLast? = t.getLast? :=
  List.getLast?_append_of_ne_nil h ht

theorem endsWithUser_append (h t : List Msg) (ht : t ≠ []) :
    endsWithUser (h ++ t) = endsWithUser t := by
  unfold endsWithUser
  rw [getLast?_append_right h t ht]

/-- Every message the normalization loop appends is a user-role message. -/
theorem normalizePart_role (p : UserPart) (m : Msg)
    (h : normalizePart p = some m) : m.role = Role.user := by
  cases p with
  | text s => simp [normalizePart] at h; rw [← h]
  | struct u =>
    simp only [normalizePart] at h
    split at h
    · split at h
      · simp only [Option.some.injEq] at h
        rw [← h]
      · cases h
    · cases h

theorem userMsgs_roles (um : UserMessage) (m : Msg) (h : m ∈ userMsgs um) :
    m.role = Role.user := by
  obtain ⟨p, _, hp⟩ := List.mem_filterMap.mp h
  exact normalizePart_role p m hp

theorem endsWithUser_of_all_user (t : List Msg) (ht : t ≠ [])
    (hall : ∀ m ∈ t, m.role = Role.user) : endsWithUser t = true := by
  unfold endsWithUser
  rw [List.getLast?_eq_getLast_of_ne_nil ht]
  simp [hall _ (List.getLast_mem ht)]

/-- The tool-execution phase always leaves a user-role tool result last. -/
theorem toolPhaseMsgs_endsWithUser (handlers : String → Option Handler)
    (tus : List ToolUse) (htus : tus ≠ []) :
    endsWithUser (toolPhaseMsgs handlers tus) = true := by
  induction tus with
  | nil => exact absurd rfl htus
  | cons tu rest ih =>
    cases rest with
    | nil => rfl
    | cons tu2 rest2 =>
      show endsWithUser ([toolUseMsg tu, toolResultMsg handlers tu] ++
        toolPhaseMsgs handlers (tu2 :: rest2)) = true
      rw [endsWithUser_append _ _ (by simp [toolPhaseMsgs])]
      exact ih (by simp)

/-- Counterexample for C5: a `chat` call whose single structured part has an
unrecognized media type appends nothing, so (here, on a fresh conversation)
the history handed to the model backend is empty and in particular does not
end with a user-role message. -/
theorem history_ends_with_user_counterexample :
    sessionHistoryMem emptyInMem
        (.single (.struct [("media_type", .str "text/plain")])) "c0" "t0" = []
    ∧ endsWithUser (sessionHistoryMem emptyInMem
        (.single (.struct [("media_type", .str "text/plain")])) "c0" "t0") = false :=
  ⟨rfl, rfl⟩

/-- C5 (amended): provided at least one content part survives normalization,
the history handed to the model backend ends with a user-role message before
the first round-trip, on both session backends; and before every subsequent
round-trip the history ends with the user-role tool result the
tool-execution phase appended last. -/
theorem history_ends_with_user_amended (mstore : InMemStore) (sstore : SqlStore)
    (um : UserMessage) (cid now : String)
    (handlers : String → Option Handler) (tus : List ToolUse) (hist : List Msg)
    (hum : userMsgs um ≠ []) (htus : tus ≠ []) :
    endsWithUser (sessionHistoryMem mstore um cid now) = true
    ∧ endsWithUser (sessionHistorySql sstore um cid now) = true
    ∧ endsWithUser (toolPhase handlers tus hist) = true := by
  refine ⟨?_, ?_, ?_⟩
  · unfold sessionHistoryMem
    rw [endsWithUser_append _ _ hum]
    exact endsWithUser_of_all_user _ hum (userMsgs_roles um)
  · unfold sessionHistorySql
    rw [endsWithUser_append _ _ hum]
    exact endsWithUser_of_all_user _ hum (userMsgs_roles um)
  · rw [toolPhase_eq_append]
    rw [endsWithUser_append _ _ (by cases tus with
      | nil => exact absurd rfl htus
      | cons a l => simp [toolPhaseMsgs])]
    exact toolPhaseMsgs_endsWithUser handlers tus htus

/-- Witness for C5 (amended): a plain-text user message on a fresh in-memory
conversation leaves the handed history ending with a user turn. -/
theorem history_ends_with_user_amended_witness :
    endsWithUser (sessionHistoryMem emptyInMem (.single (.text "hi")) "c1" "t0") = true :=
  (history_ends_with_user_amended emptyInMem emptySql (.single (.text "hi"))
    "c1" "t0" cNoHandlers [⟨"t1", "x", []⟩] []
    (by simp [userMsgs, UserMessage.toList, normalizePart])
    (by simp)).1

/-- Counterexample for C7: one `chat` call whose `user_message` is a list of
two plain strings appends two separate user messages (plus the assistant
answer), not a single user message. -/
theorem single_user_message_counterexample :
    (InMemoryConversation.chat (ClaudeAgent.chatExcept cNoHandlers cTextBackend 1)
        emptyInMem (.list [.text "a", .text "b"]) (some "c0") "f0" "t0").2 =
      .ok ("c0", "r")
    ∧ inMemLoad (InMemoryConversation.chat (ClaudeAgent.chatExcept cNoHandlers cTextBackend 1)
        emptyInMem (.list [.text "a", .text "b"]) (some "c0") "f0" "t0").1 "c0" =
        [⟨.user, .str "a"⟩, ⟨.user, .str "b"⟩, ⟨.assistant, .str "r"⟩]
    ∧ (inMemLoad (InMemoryConversation.chat (ClaudeAgent.chatExcept cNoHandlers cTextBackend 1)
        emptyInMem (.list [.text "a", .text "b"]) (some "c0") "f0" "t0").1 "c0").countP
        (fun m => decide (m.role = Role.user)) = 2 :=
  ⟨rfl, rfl, rfl⟩

/-- C7 (amended): each part of the user input is normalized individually —
plain text stays a text part, a structured part with a recognized media type
is wrapped into one attachment content part (document for `application/pdf`,
image otherwise), a structured part with an unrecognized or missing media
type is silently dropped without error — and each surviving part is appended
to the history as its own user Message (a single user Message when the input
is a single part). -/
theorem user_message_normalization (s : String) (u : Args) (mt : String)
    (store : InMemStore) (um : UserMessage) (cid now : String)
    (hmedia : dictGet "media_type" u = some (.str mt)) :
    normalizePart (.text s) = some ⟨.user, .str s⟩
    ∧ (mt ∈ SUPPORTED_MEDIA_TYPE →
        normalizePart (.struct u) = some ⟨.user, .blocks
          [.attach (if mt = "application/pdf" then "document" else "image") u]⟩)
    ∧ (mt ∉ SUPPORTED_MEDIA_TYPE → normalizePart (.struct u) = none)
    ∧ (∀ v : Args, dictGet "media_type" v = none → normalizePart (.struct v) = none)
    ∧ sessionHistoryMem store um cid now =
        inMemLoad (inMemEnsure store cid now) cid ++ um.toList.filterMap normalizePart
    ∧ (∀ p : UserPart, userMsgs (.single p) = (normalizePart p).toList) := by
  refine ⟨rfl, ?_, ?_, ?_, rfl, ?_⟩
  · intro hmt
    simp [normalizePart, hmedia, hmt]
  · intro hmt
    simp [normalizePart, hmedia, hmt]
  · intro v hv
    simp [normalizePart, hv]
  · intro p
    cases hp : normalizePart p <;> simp [userMsgs, UserMessage.toList, hp]

/-- Witness for C7 (amended): a PDF attachment part is wrapped into a single
document content part. -/
theorem user_message_normalization_witness :
    normalizePart (.struct [("media_type", .str "application/pdf")]) =
      some ⟨.user, .blocks [.attach "document" [("media_type", .str "application/pdf")]]⟩ :=
  (user_message_normalization "hi" [("media_type", .str "application/pdf")]
    "application/pdf" emptyInMem (.single (.text "hi")) "c1" "t0" rfl).2.1
    (by decide)

/-- C9: loading a conversation id that was never created returns the empty
history and never fails, on both the in-memory and the SQLite backend. -/
theorem load_unknown_id_empty (mstore : InMemStore) (sstore : SqlStore)
    (cid : String)
    (hmem : inMemExists mstore cid = false)
    (hwf : sqlWF sstore) (hsql : sqlExists sstore cid = false) :
    inMemLoad mstore cid = [] ∧ sqlLoad sstore cid = [] := by
  constructor
  · unfold inMemLoad
    unfold inMemExists at hmem
    cases h : dlookup cid mstore.conversations with
    | none => rfl
    | some v => rw [h] at hmem; simp at hmem
  · unfold sqlLoad
    rw [List.filterMap_eq_nil_iff]
    intro r hr
    rw [if_neg ?_]
    intro hc
    have hex := hwf r hr
    rw [hc] at hex
    rw [hex] at hsql
    cases hsql

/-- Witness for C9: the empty stores and the id "nope". -/
theorem load_unknown_id_empty_witness :
    inMemLoad emptyInMem "nope" = [] ∧ sqlLoad emptySql "nope" = [] :=
  load_unknown_id_empty emptyInMem emptySql "nope" rfl
    (by simp [sqlWF, emptySql]) rfl

/-- C10: `InMemoryConversation.chat` works on a copy of the stored history
and writes back only after the wrapped agent returns, so when the agent
raises: the exception propagates; for an existing conversation id the store
is exactly what it was before the call (not even the user turn is
retained); for a previously unknown id only the empty conversation entry
and its metadata have been created. -/
theorem inmem_chat_atomic_on_failure (agent : AgentFn) (store : InMemStore)
    (um : UserMessage) (conversation_id : Option String) (freshId now : String)
    (e : String)
    (hfail : agent (sessionHistoryMem store um
      (resolveId conversation_id freshId) now) = .error e) :
    (InMemoryConversation.chat agent store um conversation_id freshId now).2 = .error e
    ∧ (inMemExists store (resolveId conversation_id freshId) = true →
        InMemoryConversation.chat agent store um conversation_id freshId now =
          (store, .error e))
    ∧ (inMemExists store (resolveId conversation_id freshId) = false →
        (InMemoryConversation.chat agent store um conversation_id freshId now).1 =
          inMemCreate store (resolveId conversation_id freshId) now) := by
  have hchat : InMemoryConversation.chat agent store um conversation_id freshId now =
      (inMemEnsure store (resolveId conversation_id freshId) now, .error e) := by
    unfold InMemoryConversation.chat
    simp only [hfail]
  refine ⟨by rw [hchat], ?_, ?_⟩
  · intro hex
    rw [hchat]
    unfold inMemEnsure
    rw [if_pos hex]
  · intro hnex
    rw [hchat]
    unfold inMemEnsure
    rw [if_neg (by simp [hnex])]

/-- Witness for C10: a failing agent call on the existing conversation "c0"
propagates the error and leaves the store untouched. -/
theorem inmem_chat_atomic_on_failure_witness :
    InMemoryConversation.chat cFailAgent cStore1 (.single (.text "x"))
      (some "c0") "f0" "t2" = (cStore1, .error "backend down") :=
  (inmem_chat_atomic_on_failure cFailAgent cStore1 (.single (.text "x"))
    (some "c0") "f0" "t2" "backend down" rfl).2.1 rfl

theorem sqlLoad_eq_rowsLoad (store : SqlStore) (cid : String) :
    sqlLoad store cid = rowsLoad store.messages cid := rfl

theorem rowsLoad_append (a b : List SqlRow) (cid : String) :
    rowsLoad (a ++ b) cid = rowsLoad a cid ++ rowsLoad b cid :=
  List.filterMap_append a b _

theorem rowsLoad_cons (r : SqlRow) (rows : List SqlRow) (cid : String) :
    rowsLoad (r :: rows) cid =
      (if r.convId = cid then [⟨r.role, r.content⟩] else []) ++ rowsLoad rows cid := by
  unfold rowsLoad
  rw [List.filterMap_cons]
  split <;> simp_all

theorem rowsLoad_mkRows_same (msgs : List Msg) (startId : Nat) (cid now : String) :
    rowsLoad (mkRows startId cid now msgs) cid = msgs := by
  induction msgs generalizing startId with
  | nil => rfl
  | cons m rest ih => simp [mkRows, rowsLoad_cons, ih]

theorem rowsLoad_mkRows_other (msgs : List Msg) (startId : Nat)
    (cid cid2 now : String) (hne : cid ≠ cid2) :
    rowsLoad (mkRows startId cid now msgs) cid2 = [] := by
  induction msgs generalizing startId with
  | nil => rfl
  | cons m rest ih => simp [mkRows, rowsLoad_cons, hne, ih]

theorem sqlSaveAll_eq (store : SqlStore) (cid : String) (msgs : List Msg)
    (now : String) :
    sqlSaveAll store cid msgs now =
      ⟨store.conversations,
       store.messages ++ mkRows store.nextId cid now msgs,
       store.nextId + msgs.length⟩ := by
  induction msgs generalizing store with
  | nil => simp [sqlSaveAll, mkRows]
  | cons m rest ih =>
    show sqlSaveAll (sqlSaveMessage store cid m.role m.content now) cid rest now = _
    rw [ih]
    simp [sqlSaveMessage, mkRows, Nat.add_assoc, Nat.add_comm 1 rest.length]

theorem sqlEnsure_messages (store : SqlStore) (cid now : String) :
    (sqlEnsure store cid now).messages = store.messages := by
  unfold sqlEnsure sqlCreate
  split <;> rfl

theorem sqlEnsure_nextId (store : SqlStore) (cid now : String) :
    (sqlEnsure store cid now).nextId = store.nextId := by
  unfold sqlEnsure sqlCreate
  split <;> rfl

theorem sqlEnsure_load (store : SqlStore) (cid now cid2 : String) :
    sqlLoad (sqlEnsure store cid now) cid2 = sqlLoad store cid2 := by
  unfold sqlLoad
  rw [sqlEnsure_messages]

/-- C8: `SQLiteConversation.chat` records the history length before
delegating to the agent loop and afterwards persists exactly the messages
the loop appended past that recorded count — the normalized user messages
were saved as they were appended, the loop's new messages are saved after
it returns, and previously loaded history is never written again, so the
conversation's readable history grows by exactly the new messages. -/
theorem sqlite_chat_persists_exactly_new (agent : AgentFn) (store : SqlStore)
    (um : UserMessage) (conversation_id : Option String) (freshId now cid : String)
    (tail : List Msg) (resp : String)
    (hcid : resolveId conversation_id freshId = cid)
    (hok : agent (sessionHistorySql store um cid now) =
      .ok (sessionHistorySql store um cid now ++ tail, resp)) :
    (SQLiteConversation.chat agent store um conversation_id freshId now).1.messages =
      store.messages ++ mkRows store.nextId cid now (userMsgs um)
        ++ mkRows (store.nextId + (userMsgs um).length) cid now tail
    ∧ sqlLoad (SQLiteConversation.chat agent store um conversation_id freshId now).1 cid =
        sqlLoad store cid ++ userMsgs um ++ tail
    ∧ (sqlLoad (SQLiteConversation.chat agent store um conversation_id freshId now).1 cid).length =
        (sqlLoad store cid).length + (userMsgs um).length + tail.length := by
  subst hcid
  unfold sessionHistorySql at hok
  have hchat : (SQLiteConversation.chat agent store um conversation_id freshId now).1 =
      sqlSaveAll
        (sqlSaveAll (sqlEnsure store (resolveId conversation_id freshId) now)
          (resolveId conversation_id freshId) (userMsgs um) now)
        (resolveId conversation_id freshId) tail now := by
    unfold SQLiteConversation.chat
    simp only [hok]
    rw [List.drop_left]
  rw [hchat]
  have hmsgs : (sqlSaveAll
      (sqlSaveAll (sqlEnsure store (resolveId conversation_id freshId) now)
        (resolveId conversation_id freshId) (userMsgs um) now)
      (resolveId conversation_id freshId) tail now).messages =
      store.messages
        ++ mkRows store.nextId (resolveId conversation_id freshId) now (userMsgs um)
        ++ mkRows (store.nextId + (userMsgs um).length)
            (resolveId conversation_id freshId) now tail := by
    rw [sqlSaveAll_eq, sqlSaveAll_eq]
    simp [sqlEnsure_messages, sqlEnsure_nextId]
  refine ⟨hmsgs, ?_, ?_⟩
  · rw [sqlLoad_eq_rowsLoad, hmsgs, rowsLoad_append, rowsLoad_append,
        rowsLoad_mkRows_same, rowsLoad_mkRows_same]
    rfl
  · rw [sqlLoad_eq_rowsLoad, hmsgs, rowsLoad_append, rowsLoad_append,
        rowsLoad_mkRows_same, rowsLoad_mkRows_same]
    simp [sqlLoad_eq_rowsLoad]
    omega

/-- Witness for C8: one text turn against the immediate-text stub backend on
an empty database. -/
theorem sqlite_chat_persists_exactly_new_witness :
    sqlLoad (SQLiteConversation.chat (ClaudeAgent.chatExcept cNoHandlers cTextBackend 1)
        emptySql (.single (.text "q")) (some "c0") "f0" "t0").1 "c0" =
      sqlLoad emptySql "c0" ++ userMsgs (.single (.text "q")) ++ [⟨.assistant, .str "r"⟩] :=
  (sqlite_chat_persists_exactly_new (ClaudeAgent.chatExcept cNoHandlers cTextBackend 1)
    emptySql (.single (.text "q")) (some "c0") "f0" "t0" "c0"
    [⟨.assistant, .str "r"⟩] "r" rfl rfl).2.1

theorem dlookup_dstore_same (k : String) (v : α) (d : List (String × α)) :
    dlookup k (dstore k v d) = some v := by
  induction d with
  | nil => simp [dstore, dlookup]
  | cons p rest ih =>
    by_cases h : p.1 = k
    · simp [dstore, dlookup, h]
    · simp [dstore, dlookup, h, ih]

theorem dlookup_dstore_other (k k2 : String) (v : α) (d : List (String × α))
    (hne : k2 ≠ k) :
    dlookup k2 (dstore k v d) = dlookup k2 d := by
  induction d with
  | nil => simp [dstore, dlookup, Ne.symm hne]
  | cons p rest ih =>
    by_cases h : p.1 = k
    · simp [dstore, dlookup, h, Ne.symm hne]
    · simp only [dstore, if_neg h]
      by_cases h2 : p.1 = k2
      · simp [dlookup, h2]
      · simp [dlookup, h2, ih]

theorem inMemEnsure_lookup_other (m : InMemStore) (cid now id : String)
    (hne : id ≠ cid) :
    dlookup id (inMemEnsure m cid now).conversations =
      dlookup id m.conversations := by
  unfold inMemEnsure inMemCreate
  split
  · rfl
  · exact dlookup_dstore_other cid id [] m.conversations hne

theorem inMemLoad_ensure_same (m : InMemStore) (cid now : String) :
    inMemLoad (inMemEnsure m cid now) cid = inMemLoad m cid := by
  unfold inMemEnsure inMemCreate inMemLoad inMemExists
  split
  · rfl
  · rename_i h
    rw [dlookup_dstore_same]
    cases hd : dlookup cid m.conversations with
    | none => rfl
    | some v => rw [hd] at h; simp at h

theorem sqlExists_ensure_same (s : SqlStore) (cid now : String) :
    sqlExists (sqlEnsure s cid now) cid = true := by
  unfold sqlEnsure
  split
  · assumption
  · simp [sqlExists, sqlCreate]

theorem sqlExists_ensure_other (s : SqlStore) (cid now id : String)
    (hne : id ≠ cid) :
    sqlExists (sqlEnsure s cid now) id = sqlExists s id := by
  unfold sqlEnsure
  split
  · rfl
  · simp [sqlExists, sqlCreate, Ne.symm hne]

theorem sqlSaveAll_conversations (s : SqlStore) (cid : String)
    (msgs : List Msg) (now : String) :
    (sqlSaveAll s cid msgs now).conversations = s.conversations := by
  rw [sqlSaveAll_eq]

theorem sqlExists_saveAll (s : SqlStore) (cid : String) (msgs : List Msg)
    (now id : String) :
    sqlExists (sqlSaveAll s cid msgs now) id = sqlExists s id := by
  unfold sqlExists
  rw [sqlSaveAll_conversations]

/-- The handed histories agree whenever the loads agree. -/
theorem sessionHistory_agree (m : InMemStore) (s : SqlStore)
    (um : UserMessage) (cid now : String)
    (hload : ∀ id, inMemLoad m id = sqlLoad s id) :
    sessionHistoryMem m um cid now = sessionHistorySql s um cid now := by
  unfold sessionHistoryMem sessionHistorySql
  rw [inMemLoad_ensure_same, sqlEnsure_load, hload]

theorem sqlLoad_saveAll_same (s : SqlStore) (cid : String) (msgs : List Msg)
    (now : String) :
    sqlLoad (sqlSaveAll s cid msgs now) cid = sqlLoad s cid ++ msgs := by
  rw [sqlLoad_eq_rowsLoad, sqlSaveAll_eq]
  show rowsLoad (s.messages ++ mkRows s.nextId cid now msgs) cid = _
  rw [rowsLoad_append, rowsLoad_mkRows_same, sqlLoad_eq_rowsLoad]

theorem sqlLoad_saveAll_other (s : SqlStore) (cid : String) (msgs : List Msg)
    (now id : String) (hne : id ≠ cid) :
    sqlLoad (sqlSaveAll s cid msgs now) id = sqlLoad s id := by
  rw [sqlLoad_eq_rowsLoad, sqlSaveAll_eq]
  show rowsLoad (s.messages ++ mkRows s.nextId cid now msgs) id = _
  rw [rowsLoad_append, rowsLoad_mkRows_other _ _ _ _ _ (Ne.symm hne),
      sqlLoad_eq_rowsLoad, List.append_nil]

theorem inMemChat_ok (agent : AgentFn) (m : InMemStore) (um : UserMessage)
    (cid? : Option String) (freshId now : String) (hist2 : List Msg) (resp : String)
    (h : agent (sessionHistoryMem m um (resolveId cid? freshId) now) = .ok (hist2, resp)) :
    InMemoryConversation.chat agent m um cid? freshId now =
      ({ inMemEnsure m (resolveId cid? freshId) now with
         conversations := dstore (resolveId cid? freshId) hist2
           (inMemEnsure m (resolveId cid? freshId) now).conversations },
       .ok (resolveId cid? freshId, resp)) := by
  unfold InMemoryConversation.chat
  simp only [h]

theorem sqlChat_ok (agent : AgentFn) (s : SqlStore) (um : UserMessage)
    (cid? : Option String) (freshId now : String) (hist2 : List Msg) (resp : String)
    (h : agent (sessionHistorySql s um (resolveId cid? freshId) now) = .ok (hist2, resp)) :
    SQLiteConversation.chat agent s um cid? freshId now =
      (sqlSaveAll
        (sqlSaveAll (sqlEnsure s (resolveId cid? freshId) now)
          (resolveId cid? freshId) (userMsgs um) now)
        (resolveId cid? freshId)
        (hist2.drop (sessionHistorySql s um (resolveId cid? freshId) now).length) now,
       .ok (resolveId cid? freshId, resp)) := by
  unfold SQLiteConversation.chat sessionHistorySql
  unfold sessionHistorySql at h
  simp only [h]

/-- One `chat` call preserves backend equivalence: same returned value, and
the two stores keep agreeing on every conversation's readable history and on
which conversations exist. -/
theorem chat_step_equiv (agent : AgentFn) (m : InMemStore) (s : SqlStore)
    (um : UserMessage) (cid? : Option String) (freshId now : String)
    (hagent : ∀ h, ∃ tail resp, agent h = .ok (h ++ tail, resp))
    (hload : ∀ id, inMemLoad m id = sqlLoad s id)
    (hex : ∀ id, inMemExists m id = sqlExists s id) :
    (InMemoryConversation.chat agent m um cid? freshId now).2 =
      (SQLiteConversation.chat agent s um cid? freshId now).2
    ∧ (∀ id, inMemLoad (InMemoryConversation.chat agent m um cid? freshId now).1 id =
        sqlLoad (SQLiteConversation.chat agent s um cid? freshId now).1 id)
    ∧ (∀ id, inMemExists (InMemoryConversation.chat agent m um cid? freshId now).1 id =
        sqlExists (SQLiteConversation.chat agent s um cid? freshId now).1 id) := by
  obtain ⟨tail, resp, hag⟩ :=
    hagent (sessionHistoryMem m um (resolveId cid? freshId) now)
  have hsess := sessionHistory_agree m s um (resolveId cid? freshId) now hload
  have hagS : agent (sessionHistorySql s um (resolveId cid? freshId) now) =
      .ok (sessionHistorySql s um (resolveId cid? freshId) now ++ tail, resp) := by
    rw [← hsess]; exact hag
  have hM := inMemChat_ok agent m um cid? freshId now _ resp hag
  have hS := sqlChat_ok agent s um cid? freshId now _ resp hagS
  have hdrop : ((sessionHistorySql s um (resolveId cid? freshId) now ++ tail).drop
      (sessionHistorySql s um (resolveId cid? freshId) now).length) = tail :=
    List.drop_left _ _
  rw [hM, hS, hdrop]
  refine ⟨rfl, ?_, ?_⟩
  · intro id
    by_cases hid : id = resolveId cid? freshId
    · subst hid
      show (dlookup (resolveId cid? freshId) (dstore (resolveId cid? freshId) _ _)).getD [] = _
      rw [dlookup_dstore_same]
      rw [sqlLoad_saveAll_same, sqlLoad_saveAll_same, sqlEnsure_load]
      rw [hsess]
      unfold sessionHistorySql
      rw [sqlEnsure_load, List.append_assoc]
      rfl
    · show (dlookup id (dstore _ _ _)).getD [] = _
      rw [dlookup_dstore_other _ _ _ _ hid, inMemEnsure_lookup_other _ _ _ _ hid]
      rw [sqlLoad_saveAll_other _ _ _ _ _ hid, sqlLoad_saveAll_other _ _ _ _ _ hid,
          sqlEnsure_load]
      exact hload id
  · intro id
    by_cases hid : id = resolveId cid? freshId
    · subst hid
      show (dlookup (resolveId cid? freshId) (dstore (resolveId cid? freshId) _ _)).isSome = _
      rw [dlookup_dstore_same, sqlExists_saveAll, sqlExists_saveAll,
          sqlExists_ensure_same]
      rfl
    · show (dlookup id (dstore _ _ _)).isSome = _
      rw [dlookup_dstore_other _ _ _ _ hid, inMemEnsure_lookup_other _ _ _ _ hid,
          sqlExists_saveAll, sqlExists_saveAll, sqlExists_ensure_other _ _ _ _ hid]
      exact hex id

theorem run_equiv (agent : AgentFn)
    (hagent : ∀ h, ∃ tail resp, agent h = .ok (h ++ tail, resp)) :
    ∀ (calls : List CallIn) (m : InMemStore) (s : SqlStore),
      (∀ id, inMemLoad m id = sqlLoad s id) →
      (∀ id, inMemExists m id = sqlExists s id) →
      (runInMem agent calls m).2 = (runSql agent calls s).2
      ∧ (∀ id, inMemLoad (runInMem agent calls m).1 id =
          sqlLoad (runSql agent calls s).1 id) := by
  intro calls
  induction calls with
  | nil => intro m s hload hex; exact ⟨rfl, hload⟩
  | cons c rest ih =>
    intro m s hload hex
    obtain ⟨hresp, hload2, hex2⟩ := chat_step_equiv agent m s c.userMessage
      c.conversationId c.freshId c.now hagent hload hex
    obtain ⟨hr, hl⟩ := ih
      (InMemoryConversation.chat agent m c.userMessage c.conversationId c.freshId c.now).1
      (SQLiteConversation.chat agent s c.userMessage c.conversationId c.freshId c.now).1
      hload2 hex2
    constructor
    · show (InMemoryConversation.chat agent m c.userMessage c.conversationId
        c.freshId c.now).2 :: _ = (SQLiteConversation.chat agent s c.userMessage
        c.conversationId c.freshId c.now).2 :: _
      rw [hresp, hr]
    · exact hl

/-- The fuelled agent loop only ever appends to the history it is given, and
succeeds whenever the loop terminates within the fuel bound. -/
theorem chatExcept_appends (handlers : String → Option Handler)
    (backend : Backend) (fuel : Nat)
    (hterm : ∀ h, ∃ r, ClaudeAgent.chat handlers backend fuel h = some r) :
    ∀ h, ∃ tail resp,
      ClaudeAgent.chatExcept handlers backend fuel h = .ok (h ++ tail, resp) := by
  intro h
  obtain ⟨r, hr⟩ := hterm h
  obtain ⟨tail, htail⟩ := chat_extends handlers backend fuel h r hr
  refine ⟨tail, r.2, ?_⟩
  unfold ClaudeAgent.chatExcept
  rw [hr, ← htail]

/-- C6: with the same scripted user messages, conversation ids, generated
ids and timestamps, and the same stubbed model backend (one for which the
agent loop terminates within the given fuel from every history),
`InMemoryConversation.chat` and `SQLiteConversation.chat` return identical
response values and leave identical message sequences readable from their
respective stores, for every conversation id. -/
theorem inmem_sqlite_backend_equivalence (handlers : String → Option Handler)
    (backend : Backend) (fuel : Nat) (calls : List CallIn)
    (hterm : ∀ h, ∃ r, ClaudeAgent.chat handlers backend fuel h = some r) :
    (runInMem (ClaudeAgent.chatExcept handlers backend fuel) calls emptyInMem).2 =
      (runSql (ClaudeAgent.chatExcept handlers backend fuel) calls emptySql).2
    ∧ (∀ id,
        inMemLoad (runInMem (ClaudeAgent.chatExcept handlers backend fuel)
          calls emptyInMem).1 id =
        sqlLoad (runSql (ClaudeAgent.chatExcept handlers backend fuel)
          calls emptySql).1 id) :=
  run_equiv (ClaudeAgent.chatExcept handlers backend fuel)
    (chatExcept_appends handlers backend fuel hterm)
    calls emptyInMem emptySql (fun _ => rfl) (fun _ => rfl)

/-- Witness for C6: one scripted call ("a" on conversation "c0") against the
immediate-text stub backend gives the same responses on both backends. -/
theorem inmem_sqlite_backend_equivalence_witness :
    (runInMem (ClaudeAgent.chatExcept cNoHandlers cTextBackend 1)
        [⟨.single (.text "a"), some "c0", "f0", "t0"⟩] emptyInMem).2 =
      (runSql (ClaudeAgent.chatExcept cNoHandlers cTextBackend 1)
        [⟨.single (.text "a"), some "c0", "f0", "t0"⟩] emptySql).2 :=
  (inmem_sqlite_backend_equivalence cNoHandlers cTextBackend 1
    [⟨.single (.text "a"), some "c0", "f0", "t0"⟩]
    (fun h => ⟨(h ++ [⟨.assistant, .str "r"⟩], "r"), by rfl⟩)).1
